import Mathlib

/-!
Shallow embedding of the hds-osc telemetry bridge (Go) and proofs about it.

The embedding follows the multi-key variant of the source:
* `healthData` / `healthData.Update`   — the Health Record and its update switch
* `hdsReceiver.dataHandler`            — the push-ingestion HTTP handler
* `wsPullReceiver.Start`               — the pull-ingestion reconnect/backoff loop
* `httpServerExporter`                 — the WebSocket broadcast server exporter
* `oscExporter.Update`                 — the OSC signal sender
* `prometheusExporter`                 — the freshness-gated metrics endpoint

Conventions: Go `time.Time` instants are modelled as natural numbers of
nanoseconds since epoch, with `0` the Go zero value (`IsZero`).  Go
`time.Duration` values are naturals of nanoseconds.  Go `float64` values are
modelled as rationals; `int(x)` conversion is truncation toward zero.
`strconv.ParseFloat` is external library code, so handlers are parameterised
by the parse function `String → Option ℚ`; a concrete decimal parser
`parseDecimal` is provided for evaluating concrete runs.
-/

/-- One nanosecond, the unit of Go `time.Duration`. -/
def nanosecond : ℕ := 1

/-- Go `time.Second` in nanoseconds. -/
def second : ℕ := 1000000000

/-- Go `time.Minute` in nanoseconds. -/
def minute : ℕ := 60 * second

/-- Truncation of a rational toward zero, the semantics of Go `int(x)` for a
float64 `x` in range (Lean `Int` division is T-division, rounding toward 0). -/
def truncInt (q : ℚ) : ℤ := q.num / (q.den : ℤ)

/-- The Health Record: Go struct `healthData` (src/unnamed/part_004).
`time` is nanoseconds since epoch, `0` meaning the Go zero value. -/
structure HealthData where
  time : ℕ
  heartRate : ℤ
  stepCount : ℤ
  distanceTraveled : ℚ
  speed : ℚ
  calories : ℤ
deriving Repr, DecidableEq

/-- The Go zero value of `healthData` (fresh struct, `Time.IsZero` true). -/
def HealthData.zero : HealthData :=
  { time := 0, heartRate := 0, stepCount := 0, distanceTraveled := 0
    speed := 0, calories := 0 }

/-- `healthData.Update` (src/unnamed/part_004): sets `Time` to now, then
switches on the key; an unrecognized key only logs a warning. -/
def HealthData.Update (d : HealthData) (now : ℕ) (key : String) (value : ℚ) :
    HealthData :=
  let d' := { d with time := now }
  if key = "heartRate" then { d' with heartRate := truncInt value }
  else if key = "stepCount" then { d' with stepCount := truncInt value }
  else if key = "distanceTraveled" then { d' with distanceTraveled := value }
  else if key = "speed" then { d' with speed := value }
  else if key = "calories" then { d' with calories := truncInt value }
  else d'

/-- The five keys recognized by `healthData.Update`. -/
def recognizedKeys : List String :=
  ["heartRate", "stepCount", "distanceTraveled", "speed", "calories"]

/-- Read the record field named by a recognized key, as a rational
(spec-side accessor used to state field-wise properties). -/
def fieldValue (d : HealthData) (key : String) : Option ℚ :=
  if key = "heartRate" then some (d.heartRate : ℚ)
  else if key = "stepCount" then some (d.stepCount : ℚ)
  else if key = "distanceTraveled" then some d.distanceTraveled
  else if key = "speed" then some d.speed
  else if key = "calories" then some (d.calories : ℚ)
  else none

/-- The numeric value a parsed float is converted to when stored under `key`:
float fields keep the value, integer fields truncate toward zero. -/
def convertedValue (key : String) (value : ℚ) : ℚ :=
  if key = "distanceTraveled" ∨ key = "speed" then value
  else (truncInt value : ℚ)

/-- Split a character list at every occurrence of ':'. -/
def splitOnColon : List Char → List (List Char)
  | [] => [[]]
  | c :: cs =>
    match splitOnColon cs with
    | [] => if c = ':' then [[], []] else [[c]]
    | p :: ps => if c = ':' then [] :: p :: ps else (c :: p) :: ps

/-- Go `strings.Split(s, ":")`: the substrings between consecutive
occurrences of the separator, in order (one part and no split when the
separator does not occur). -/
def stringsSplitColon (s : String) : List String :=
  (splitOnColon s.toList).map (fun l => ⟨l⟩)

/-- Result of one call to `hdsReceiver.dataHandler`: HTTP status written,
the record after the call, and the `(exporter, record, key)` Update
invocations made, in order. -/
structure HandlerResult (α : Type) where
  status : ℕ
  data : HealthData
  calls : List (α × HealthData × String)
deriving Repr, DecidableEq

/-- `hdsReceiver.dataHandler` (src/unnamed/part_004), starting from the
decoded `data` string of the request body.  `parse` stands for
`strconv.ParseFloat(·, 64)`.  Splitting on ":" must give exactly two parts;
then the value must parse; then the record is updated, 200 is written, and
every exporter's Update is invoked in registration order with the updated
record and the key. -/
def dataHandler {α : Type} (parse : String → Option ℚ) (exporters : List α)
    (d : HealthData) (now : ℕ) (dataStr : String) : HandlerResult α :=
  match stringsSplitColon dataStr with
  | [key, valueStr] =>
    match parse valueStr with
    | some value =>
      let d' := d.Update now key value
      { status := 200, data := d'
        calls := exporters.map (fun e => (e, d', key)) }
    | none => { status := 400, data := d, calls := [] }
  | _ => { status := 400, data := d, calls := [] }

/-- Digits of a decimal natural number, most significant first. -/
def parseNatDigits : List Char → Option ℕ
  | [] => none
  | cs => cs.foldlM (fun acc c =>
      if c.isDigit then some (acc * 10 + (c.toNat - 48)) else none) 0

/-- A concrete decimal parser standing in for `strconv.ParseFloat` on plain
decimal inputs: optional sign, digits, optional fractional digits. -/
def parseDecimal (s : String) : Option ℚ :=
  let (sign, rest) :=
    match s.toList with
    | '-' :: cs => ((-1 : ℤ), cs)
    | '+' :: cs => ((1 : ℤ), cs)
    | cs => ((1 : ℤ), cs)
  match rest.splitOn '.' with
  | [intPart] => do
    let n ← parseNatDigits intPart
    pure ((sign * n : ℤ) : ℚ)
  | [intPart, fracPart] => do
    let n ← parseNatDigits intPart
    let f ← parseNatDigits fracPart
    pure ((sign : ℚ) * ((n : ℚ) + (f : ℚ) / (10 : ℚ) ^ fracPart.length))
  | _ => none

/-! ## WebSocket broadcast server exporter (src/unnamed/part_002) -/

/-- The frame type `wsUpdateMessage`: full record snapshot plus updated key. -/
structure WsUpdateMessage where
  data : HealthData
  updatedKey : String
deriving Repr, DecidableEq

/-- State of `httpServerExporter`: the registered subscriber channels and the
`data` field read by `getLatest`/`connectWS`.  Each subscriber's unbuffered
channel is modelled by whether its receiving goroutine is currently blocked
at the receive (`true` = a non-blocking send would be accepted). -/
structure HTTPServerExporter where
  clients : List Bool
  data : HealthData
deriving Repr, DecidableEq

/-- `newHTTPServerExporter`: zero-value `data`, no clients. -/
def HTTPServerExporter.new : HTTPServerExporter :=
  { clients := [], data := HealthData.zero }

/-- `httpServerExporter.Update`: builds the message and attempts a
non-blocking send (`select`/`default`) to every registered client channel.
Returns the state after the call and, per client in order, the message that
client received (`none` when the channel could not accept and the message
was dropped).  Faithful to the source, no field of the receiver is written. -/
def HTTPServerExporter.Update (h : HTTPServerExporter) (data : HealthData)
    (updatedKey : String) : HTTPServerExporter × List (Option WsUpdateMessage) :=
  let msg : WsUpdateMessage := { data := data, updatedKey := updatedKey }
  (h, h.clients.map (fun ready => if ready then some msg else none))

/-- Fold a sequence of `Update` calls through the exporter state. -/
def HTTPServerExporter.applyUpdates (h : HTTPServerExporter)
    (events : List (HealthData × String)) : HTTPServerExporter :=
  events.foldl (fun s e => (s.Update e.1 e.2).1) h

/-- `httpServerExporter.getLatest`: 404 and no body when `h.data.Time` is the
zero value, otherwise 200 with the JSON encoding of `h.data`. -/
def HTTPServerExporter.getLatest (h : HTTPServerExporter) :
    ℕ × Option HealthData :=
  if h.data.time = 0 then (404, none) else (200, some h.data)

/-- The initial frame `connectWS` sends to a freshly upgraded subscriber:
a copy of `h.data` under key "all" when `h.data.Time` is non-zero, nothing
otherwise. -/
def HTTPServerExporter.initialFrame (h : HTTPServerExporter) :
    Option WsUpdateMessage :=
  let data := h.data
  if data.time = 0 then none
  else some { data := data, updatedKey := "all" }

/-! ## OSC exporter (src/unnamed/part_002) -/

/-- An OSC packet as built by `oscExporter.Update`: destination address plus
one appended float argument. -/
structure OscMessage where
  addr : String
  value : ℚ
deriving Repr, DecidableEq

/-- `oscExporter.Update`: nothing is sent (and nil is returned) unless the
updated key is "heartRate" or "all"; otherwise one message carrying
`HeartRate / heartRateMax` is sent.  `heartRateMax` is fixed at 256 by
`newOSCExporter`.  Result: the list of messages handed to `client.Send`. -/
def oscUpdate (addrName : String) (data : HealthData) (updatedKey : String) :
    List OscMessage :=
  if updatedKey ≠ "heartRate" ∧ updatedKey ≠ "all" then []
  else [{ addr := addrName, value := (data.heartRate : ℚ) / 256 }]

/-! ## Prometheus exporter (src/unnamed/part_002) -/

/-- State of `prometheusExporter`: the cached record the gauge/counter
closures read through. -/
structure PrometheusExporter where
  data : HealthData
deriving Repr, DecidableEq

/-- `newPrometheusExporter`: zero-value cached record. -/
def PrometheusExporter.new : PrometheusExporter :=
  { data := HealthData.zero }

/-- `prometheusExporter.Update`: full overwrite of the cached record, the
updated key is ignored. -/
def PrometheusExporter.Update (_p : PrometheusExporter) (data : HealthData)
    (_updatedKey : String) : PrometheusExporter :=
  { data := data }

/-- Fold a sequence of `Update` calls through the exporter state. -/
def PrometheusExporter.applyUpdates (p : PrometheusExporter)
    (events : List (HealthData × String)) : PrometheusExporter :=
  events.foldl (fun s e => s.Update e.1 e.2) p

/-- The exposition the registry renders at scrape time: each metric is a
read-through function of the cached record. -/
def PrometheusExporter.render (p : PrometheusExporter) : List (String × ℚ) :=
  [("heart_rate", (p.data.heartRate : ℚ)),
   ("step_count", (p.data.stepCount : ℚ)),
   ("distance_traveled", p.data.distanceTraveled),
   ("speed", p.data.speed),
   ("calories", (p.data.calories : ℚ))]

/-- `prometheusExporter.ServeHTTP` at wall-clock instant `now`: when no data
was ever received (`Time` zero) or `time.Since(lastReceived) > 30s`, write
200 with an empty body (`none`); otherwise serve the registry exposition.
`time.Since` is `now - lastReceived`; ℕ subtraction truncates at zero, which
agrees with the Go branch for every `now ≥ lastReceived` (and a timestamp in
the future is "fresh" in both). -/
def PrometheusExporter.ServeHTTP (p : PrometheusExporter) (now : ℕ) :
    ℕ × Option (List (String × ℚ)) :=
  let lastReceived := p.data.time
  if lastReceived = 0 ∨ 30 * second < now - lastReceived then (200, none)
  else (200, some p.render)

/-! ## Pull receiver backoff loop (src/unnamed/part_004) -/

/-- `wsPullFirstWait = time.Second`. -/
def wsPullFirstWait : ℕ := second

/-- `wsPullMaxBackoff = 10 * time.Minute`. -/
def wsPullMaxBackoff : ℕ := 10 * minute

/-- One iteration of the reconnect loop in `wsPullReceiver.Start`, given the
current `nextBackoff` and whether the finished session was clean
(`connect()` returned nil: end-of-stream).  Result: the duration slept
before the next `connect()` and the `nextBackoff` afterwards.  A clean
session first resets `nextBackoff` and sleeps the reset value; an errored
session sleeps the current value, then doubles it capped at the maximum. -/
def wsPullStep (nextBackoff : ℕ) (clean : Bool) : ℕ × ℕ :=
  if clean then (wsPullFirstWait, wsPullFirstWait)
  else (nextBackoff, min (nextBackoff * 2) wsPullMaxBackoff)

/-- `nextBackoff` after a sequence of session outcomes, starting from the
constructor's `wsPullFirstWait`. -/
def wsPullBackoffAfter (outcomes : List Bool) : ℕ :=
  outcomes.foldl (fun b c => (wsPullStep b c).2) wsPullFirstWait

/-- One fold step of the loop carrying `(nextBackoff, sleeps so far)`. -/
def wsPullLoopStep (acc : ℕ × List ℕ) (clean : Bool) : ℕ × List ℕ :=
  ((wsPullStep acc.1 clean).2, acc.2 ++ [(wsPullStep acc.1 clean).1])

/-- The sleeps performed by the loop over a sequence of session outcomes. -/
def wsPullWaits (outcomes : List Bool) : List ℕ :=
  (outcomes.foldl wsPullLoopStep (wsPullFirstWait, [])).2

/-! ## Helper lemmas -/

/-- `healthData.Update` on an unrecognized key still stamps `Time` but
touches nothing else. -/
lemma HealthData.update_of_unrecognized (d : HealthData) (now : ℕ)
    (key : String) (value : ℚ) (hkey : key ∉ recognizedKeys) :
    d.Update now key value = { d with time := now } := by
  simp only [recognizedKeys, List.mem_cons, List.not_mem_nil, or_false,
    not_or] at hkey
  obtain ⟨h1, h2, h3, h4, h5⟩ := hkey
  simp [HealthData.Update, h1, h2, h3, h4, h5]


/-! ## Claims -/

/-- C1: for every push payload `key:value` whose key is one of the five
recognized keys and whose value parses as a number, the handler responds
200, the record after the call is `d.Update now key v`, which has `time`
set to `now`, the field named by `key` set to the parsed value converted to
the field's numeric type, and every other field unchanged. -/
theorem hds_valid_push {α : Type} (parse : String → Option ℚ)
    (exporters : List α) (d : HealthData) (now : ℕ)
    (dataStr key valueStr : String) (v : ℚ)
    (hkey : key ∈ recognizedKeys)
    (hsplit : stringsSplitColon dataStr = [key, valueStr])
    (hparse : parse valueStr = some v) :
    (dataHandler parse exporters d now dataStr).status = 200 ∧
    (dataHandler parse exporters d now dataStr).data = d.Update now key v ∧
    (d.Update now key v).time = now ∧
    fieldValue (d.Update now key v) key = some (convertedValue key v) ∧
    (∀ k ∈ recognizedKeys, k ≠ key →
      fieldValue (d.Update now key v) k = fieldValue d k) := by
  refine ⟨?_, ?_, ?_, ?_, ?_⟩
  · simp [dataHandler, hsplit, hparse]
  · simp [dataHandler, hsplit, hparse]
  · fin_cases hkey <;> simp [HealthData.Update]
  · fin_cases hkey <;> simp [HealthData.Update, fieldValue, convertedValue]
  · intro k hk hne
    fin_cases hkey <;> fin_cases hk <;>
      simp_all [HealthData.Update, fieldValue]

/-- Witness for C1 at the concrete push `heartRate:80` with `now = 100`. -/
theorem hds_valid_push_witness :
    (dataHandler parseDecimal [(0 : ℕ)] HealthData.zero 100
      "heartRate:80").status = 200 ∧
    (dataHandler parseDecimal [(0 : ℕ)] HealthData.zero 100
      "heartRate:80").data = HealthData.zero.Update 100 "heartRate" 80 ∧
    (HealthData.zero.Update 100 "heartRate" 80).time = 100 ∧
    fieldValue (HealthData.zero.Update 100 "heartRate" 80) "heartRate" =
      some (convertedValue "heartRate" 80) ∧
    fieldValue (HealthData.zero.Update 100 "heartRate" 80) "speed" =
      fieldValue HealthData.zero "speed" := by
  have h := hds_valid_push parseDecimal [(0 : ℕ)] HealthData.zero 100
    "heartRate:80" "heartRate" "80" 80 (by decide) (by decide) (by decide)
  exact ⟨h.1, h.2.1, h.2.2.1, h.2.2.2.1,
    h.2.2.2.2 "speed" (by decide) (by decide)⟩

/-- C2: for every malformed push payload — the data string does not split
into exactly two parts on ":", or the value part does not parse — the
handler responds 400, the record is returned unchanged, and no exporter
Update call is made. -/
theorem hds_malformed_push {α : Type} (parse : String → Option ℚ)
    (exporters : List α) (d : HealthData) (now : ℕ) (dataStr : String)
    (hbad : (stringsSplitColon dataStr).length ≠ 2 ∨
      ∃ key valueStr, stringsSplitColon dataStr = [key, valueStr] ∧
        parse valueStr = none) :
    dataHandler parse exporters d now dataStr =
      { status := 400, data := d, calls := [] } := by
  rcases hsplit : stringsSplitColon dataStr with _ | ⟨a, _ | ⟨b, _ | ⟨c, t⟩⟩⟩
  · simp [dataHandler, hsplit]
  · simp [dataHandler, hsplit]
  · rcases hbad with hlen | ⟨key, valueStr, heq, hparse⟩
    · rw [hsplit] at hlen; simp at hlen
    · rw [hsplit] at heq
      obtain ⟨rfl, rfl⟩ : a = key ∧ b = valueStr := by
        simpa using heq
      simp [dataHandler, hsplit, hparse]
  · simp [dataHandler, hsplit]

/-- Witness for C2 at the concrete malformed payloads `a:b:c` (two
separators) and `heartRate:xy` (non-numeric value). -/
theorem hds_malformed_push_witness :
    dataHandler parseDecimal [(0 : ℕ)] HealthData.zero 100 "a:b:c" =
      { status := 400, data := HealthData.zero, calls := [] } ∧
    dataHandler parseDecimal [(0 : ℕ)] HealthData.zero 100 "heartRate:xy" =
      { status := 400, data := HealthData.zero, calls := [] } :=
  ⟨hds_malformed_push parseDecimal [(0 : ℕ)] HealthData.zero 100 "a:b:c"
      (Or.inl (by decide)),
   hds_malformed_push parseDecimal [(0 : ℕ)] HealthData.zero 100 "heartRate:xy"
      (Or.inr ⟨"heartRate", "xy", by decide, by decide⟩)⟩

/-- C9 counterexample: the claim says an update event with an unrecognized
key leaves the Health Record, including its time field, unchanged; but
`healthData.Update` stamps `Time = time.Now()` before switching on the key,
so at the concrete record `HealthData.zero`, key "foo" (unrecognized) and
now = 100 the record does change (its time field becomes 100). -/
theorem update_unknown_key_changes_time :
    "foo" ∉ recognizedKeys ∧
    HealthData.zero.Update 100 "foo" 1 ≠ HealthData.zero ∧
    (HealthData.zero.Update 100 "foo" 1).time = 100 := by
  refine ⟨by decide, ?_, by decide⟩
  intro h
  have : (HealthData.zero.Update 100 "foo" 1).time = HealthData.zero.time :=
    congrArg HealthData.time h
  simp [HealthData.Update, HealthData.zero] at this

/-- C9 amended: for every update event whose key is not one of the five
recognized keys, `healthData.Update` sets the time field to the current
time and leaves every other field of the record unchanged. -/
theorem update_unknown_key_only_time (d : HealthData) (now : ℕ)
    (key : String) (value : ℚ) (hkey : key ∉ recognizedKeys) :
    d.Update now key value = { d with time := now } :=
  d.update_of_unrecognized now key value hkey

/-- Witness for the amended C9 at record `HealthData.zero`, key "foo",
now = 100. -/
theorem update_unknown_key_only_time_witness :
    HealthData.zero.Update 100 "foo" 1 = { HealthData.zero with time := 100 } :=
  update_unknown_key_only_time HealthData.zero 100 "foo" 1 (by decide)

/-- C10: a well-formed push payload with an unrecognized key is accepted:
the handler responds 200, the record's time field is set to now with all
other fields unchanged, and every registered exporter's Update is invoked
in registration order with the resulting record and the unrecognized key. -/
theorem hds_unknown_key_push {α : Type} (parse : String → Option ℚ)
    (exporters : List α) (d : HealthData) (now : ℕ)
    (dataStr key valueStr : String) (v : ℚ)
    (hkey : key ∉ recognizedKeys)
    (hsplit : stringsSplitColon dataStr = [key, valueStr])
    (hparse : parse valueStr = some v) :
    dataHandler parse exporters d now dataStr =
      { status := 200, data := { d with time := now }
        calls := exporters.map (fun e => (e, { d with time := now }, key)) } := by
  have hupd := d.update_of_unrecognized now key v hkey
  simp [dataHandler, hsplit, hparse, hupd]

/-- Witness for C10 at the concrete push `foo:1` with two exporters. -/
theorem hds_unknown_key_push_witness :
    dataHandler parseDecimal [(0 : ℕ), 1] HealthData.zero 100 "foo:1" =
      { status := 200, data := { HealthData.zero with time := 100 }
        calls := [(0, { HealthData.zero with time := 100 }, "foo"),
                  (1, { HealthData.zero with time := 100 }, "foo")] } := by
  have h := hds_unknown_key_push parseDecimal [(0 : ℕ), 1] HealthData.zero 100
    "foo:1" "foo" "1" 1 (by decide) (by decide) (by decide)
  simpa using h

/-- Both the sleep and the next backoff of one loop iteration stay at or
below the cap, provided the current backoff does. -/
lemma wsPullStep_le_max (b : ℕ) (c : Bool) (hb : b ≤ wsPullMaxBackoff) :
    (wsPullStep b c).1 ≤ wsPullMaxBackoff ∧
    (wsPullStep b c).2 ≤ wsPullMaxBackoff := by
  cases c with
  | true =>
    refine ⟨?_, ?_⟩ <;> simp [wsPullStep] <;> decide
  | false =>
    refine ⟨?_, ?_⟩ <;> simp only [wsPullStep, Bool.false_eq_true, if_false]
    · exact hb
    · exact min_le_right _ _

/-- Every sleep accumulated by the loop fold is at most the cap, for any
capped starting backoff and any already-capped accumulator. -/
lemma wsPullWaits_go_le_max (outcomes : List Bool) (b : ℕ) (acc : List ℕ)
    (hb : b ≤ wsPullMaxBackoff) (hacc : ∀ w ∈ acc, w ≤ wsPullMaxBackoff) :
    ∀ w ∈ (outcomes.foldl wsPullLoopStep (b, acc)).2, w ≤ wsPullMaxBackoff := by
  induction outcomes generalizing b acc with
  | nil => simpa using hacc
  | cons c cs ih =>
    rw [List.foldl_cons]
    refine ih _ _ (wsPullStep_le_max b c hb).2 ?_
    intro w hw
    rcases List.mem_append.mp hw with hw | hw
    · exact hacc w hw
    · rcases List.mem_singleton.mp hw with rfl
      exact (wsPullStep_le_max b c hb).1

/-- C3: the pull receiver's backoff starts at 1 second; an iteration after a
failed session sleeps the current backoff and then doubles it capped at the
10-minute maximum; an iteration after a clean session resets the backoff to
1 second before sleeping; and over every sequence of session outcomes every
sleep performed by the loop is at most the maximum. -/
theorem ws_pull_backoff_policy :
    wsPullFirstWait = second ∧
    wsPullMaxBackoff = 10 * minute ∧
    wsPullBackoffAfter [] = wsPullFirstWait ∧
    (∀ b, wsPullStep b false = (b, min (b * 2) wsPullMaxBackoff)) ∧
    (∀ b, wsPullStep b true = (wsPullFirstWait, wsPullFirstWait)) ∧
    (∀ outcomes, ∀ w ∈ wsPullWaits outcomes, w ≤ wsPullMaxBackoff) := by
  refine ⟨rfl, rfl, rfl, fun b => rfl, fun b => rfl, fun outcomes => ?_⟩
  exact wsPullWaits_go_le_max outcomes wsPullFirstWait [] (by decide)
    (by simp)

/-- Witness for C3 on the concrete outcome sequence
fail, fail, clean, fail: the loop sleeps 1s, 2s, 1s, 1s, and each sleep is
within the cap (the 2-second sleep checked through the theorem). -/
theorem ws_pull_backoff_policy_witness :
    wsPullWaits [false, false, true, false] =
      [second, 2 * second, second, second] ∧
    2 * second ≤ wsPullMaxBackoff := by
  refine ⟨by decide, ?_⟩
  exact ws_pull_backoff_policy.2.2.2.2.2 [false, false, true, false]
    (2 * second) (by decide)

/-- `httpServerExporter.Update` writes no field of the exporter, so any
sequence of Update calls leaves the exporter state where it started. -/
lemma HTTPServerExporter.applyUpdates_eq (h : HTTPServerExporter)
    (events : List (HealthData × String)) : h.applyUpdates events = h := by
  induction events generalizing h with
  | nil => rfl
  | cons e es ih => exact ih h

/-- C4 (code bug): `httpServerExporter.Update` never stores the incoming
snapshot into `h.data`, so the `connectWS` initial-frame read always sees
the zero-value record: no subscriber ever receives an initial "all" frame,
even after updates have been applied — here evaluated after an Update
carrying a record with non-zero time and heart rate 80. -/
theorem broadcast_initial_frame_never_sent :
    (∀ events, (HTTPServerExporter.new.applyUpdates events).initialFrame
       = none) ∧
    (HTTPServerExporter.new.applyUpdates
       [(⟨100, 80, 0, 0, 0, 0⟩, "heartRate")]).initialFrame = none := by
  constructor
  · intro events
    rw [HTTPServerExporter.applyUpdates_eq]
    decide
  · decide

/-- C5 (code bug): the push `heartRate:80` is accepted (status 200, record
heart rate 80) and the broadcast exporter receives the Update call, yet
`getLatest` still answers 404 with no body, because
`httpServerExporter.Update` never stores the snapshot into `h.data`; in
general `getLatest` answers 404 after any sequence of Update calls. -/
theorem get_latest_after_push_bug :
    (∀ events, (HTTPServerExporter.new.applyUpdates events).getLatest
       = (404, none)) ∧
    (dataHandler parseDecimal [(0 : ℕ)] HealthData.zero 100
       "heartRate:80").status = 200 ∧
    (dataHandler parseDecimal [(0 : ℕ)] HealthData.zero 100
       "heartRate:80").data.heartRate = 80 ∧
    (HTTPServerExporter.new.applyUpdates
       ((dataHandler parseDecimal [(0 : ℕ)] HealthData.zero 100
          "heartRate:80").calls.map (fun c => (c.2.1, c.2.2)))).getLatest
       = (404, none) := by
  refine ⟨?_, by decide, by decide, ?_⟩
  · intro events
    rw [HTTPServerExporter.applyUpdates_eq]
    decide
  · rw [HTTPServerExporter.applyUpdates_eq]
    decide

/-- C6: one `httpServerExporter.Update` call delivers to exactly the
subscribers whose channel can accept immediately: the per-subscriber
outcome list is as long as the subscriber list, subscriber `i` receives the
message iff its channel is ready (otherwise the message is dropped for it,
nothing is queued), and the outcome for subscriber `i` depends only on
subscriber `i`'s own channel state, never on another subscriber's fullness. -/
theorem broadcast_update_per_client (h : HTTPServerExporter)
    (data : HealthData) (key : String) :
    (h.Update data key).1 = h ∧
    ((h.Update data key).2).length = h.clients.length ∧
    (∀ i : ℕ, ((h.Update data key).2)[i]? = (h.clients[i]?).map
      (fun ready => if ready then
        some { data := data, updatedKey := key } else none)) ∧
    (∀ (h' : HTTPServerExporter) (i : ℕ),
      h.clients[i]? = h'.clients[i]? →
      ((h.Update data key).2)[i]? = ((h'.Update data key).2)[i]?) := by
  refine ⟨rfl, by simp [HTTPServerExporter.Update], ?_, ?_⟩
  · intro i
    simp [HTTPServerExporter.Update, List.getElem?_map]
  · intro h' i hcl
    simp [HTTPServerExporter.Update, List.getElem?_map, hcl]

/-- Witness for C6: two subscribers, the first ready and the second full:
the first receives the update, the second misses it; and the first
subscriber's outcome is the same as in a registry where the second is
ready, checked through the theorem. -/
theorem broadcast_update_per_client_witness :
    ((HTTPServerExporter.mk [true, false] HealthData.zero).Update
       ⟨100, 80, 0, 0, 0, 0⟩ "heartRate").2 =
      [some { data := ⟨100, 80, 0, 0, 0, 0⟩, updatedKey := "heartRate" },
       none] ∧
    (((HTTPServerExporter.mk [true, false] HealthData.zero).Update
        ⟨100, 80, 0, 0, 0, 0⟩ "heartRate").2)[0]? =
      (((HTTPServerExporter.mk [true, true] HealthData.zero).Update
        ⟨100, 80, 0, 0, 0, 0⟩ "heartRate").2)[0]? := by
  refine ⟨by decide, ?_⟩
  exact (broadcast_update_per_client
    (HTTPServerExporter.mk [true, false] HealthData.zero)
    ⟨100, 80, 0, 0, 0, 0⟩ "heartRate").2.2.2
    (HTTPServerExporter.mk [true, true] HealthData.zero) 0 (by decide)

/-- After any Update history ending in `(d, k)`, the Prometheus exporter's
cached record is exactly `d` (full overwrite, key ignored). -/
lemma PrometheusExporter.applyUpdates_snoc (es : List (HealthData × String))
    (d : HealthData) (k : String) :
    PrometheusExporter.new.applyUpdates (es ++ [(d, k)]) =
      PrometheusExporter.mk d := by
  simp [PrometheusExporter.applyUpdates, List.foldl_append,
    PrometheusExporter.Update]

/-- C7: a scrape of the metrics endpoint at instant `now` answers 200 with
an empty body when no Update was ever received, or when the most recent
Update's record is stale (timestamp zero or older than the 30-second
window); otherwise it answers 200 with the non-empty exposition whose
`heart_rate` metric is the heart rate of the most recent Update's record. -/
theorem prom_scrape (now : ℕ) :
    PrometheusExporter.new.ServeHTTP now = (200, none) ∧
    (∀ (events : List (HealthData × String)) (d : HealthData) (k : String),
      (PrometheusExporter.new.applyUpdates (events ++ [(d, k)])).data = d) ∧
    (∀ (events : List (HealthData × String)) (d : HealthData) (k : String),
      d.time = 0 ∨ 30 * second < now - d.time →
      (PrometheusExporter.new.applyUpdates (events ++ [(d, k)])).ServeHTTP now
        = (200, none)) ∧
    (∀ (events : List (HealthData × String)) (d : HealthData) (k : String),
      d.time ≠ 0 → now - d.time ≤ 30 * second →
      (PrometheusExporter.new.applyUpdates (events ++ [(d, k)])).ServeHTTP now
          = (200, some (PrometheusExporter.mk d).render) ∧
        (PrometheusExporter.mk d).render ≠ [] ∧
        ((PrometheusExporter.mk d).render).lookup "heart_rate"
          = some (d.heartRate : ℚ)) := by
  refine ⟨?_, ?_, ?_, ?_⟩
  · simp [PrometheusExporter.ServeHTTP, PrometheusExporter.new,
      HealthData.zero]
  · intro es d k
    rw [PrometheusExporter.applyUpdates_snoc]
  · intro es d k hcond
    rw [PrometheusExporter.applyUpdates_snoc]
    rcases hcond with h0 | hlt
    · simp [PrometheusExporter.ServeHTTP, h0]
    · simp [PrometheusExporter.ServeHTTP, hlt]
  · intro es d k h0 hle
    rw [PrometheusExporter.applyUpdates_snoc]
    refine ⟨?_, by simp [PrometheusExporter.render], ?_⟩
    · simp only [PrometheusExporter.ServeHTTP]
      rw [if_neg]
      push_neg
      exact ⟨h0, hle⟩
    · simp [PrometheusExporter.render, List.lookup]

/-- Witness for C7: after one Update with record time 100 and heart rate
80, a scrape exactly at the freshness boundary serves the exposition with
`heart_rate` 80, and a scrape one nanosecond later serves the empty body. -/
theorem prom_scrape_witness :
    (PrometheusExporter.new.applyUpdates
       [(⟨100, 80, 0, 0, 0, 0⟩, "heartRate")]).ServeHTTP (100 + 30 * second)
      = (200, some (PrometheusExporter.mk ⟨100, 80, 0, 0, 0, 0⟩).render) ∧
    ((PrometheusExporter.mk ⟨100, 80, 0, 0, 0, 0⟩).render).lookup "heart_rate"
      = some 80 ∧
    (PrometheusExporter.new.applyUpdates
       [(⟨100, 80, 0, 0, 0, 0⟩, "heartRate")]).ServeHTTP (101 + 30 * second)
      = (200, none) := by
  have hfresh := (prom_scrape (100 + 30 * second)).2.2.2 []
    ⟨100, 80, 0, 0, 0, 0⟩ "heartRate" (by decide) (by decide)
  have hstale := (prom_scrape (101 + 30 * second)).2.2.1 []
    ⟨100, 80, 0, 0, 0, 0⟩ "heartRate" (Or.inr (by decide))
  exact ⟨hfresh.1, by simpa using hfresh.2.2, hstale⟩

/-- C8: `oscExporter.Update` sends nothing (and returns nil) when the
updated key is neither "heartRate" nor "all"; otherwise it sends exactly
one message to the configured address carrying heart rate divided by 256 —
and a heart rate of 80 yields the value 0.3125. -/
theorem osc_update_policy (addr : String) (data : HealthData) (key : String) :
    (key ≠ "heartRate" → key ≠ "all" → oscUpdate addr data key = []) ∧
    (key = "heartRate" ∨ key = "all" →
      oscUpdate addr data key =
        [{ addr := addr, value := (data.heartRate : ℚ) / 256 }]) ∧
    (data.heartRate = 80 → (data.heartRate : ℚ) / 256 = 0.3125) := by
  refine ⟨?_, ?_, ?_⟩
  · intro h1 h2
    simp [oscUpdate, h1, h2]
  · rintro (rfl | rfl) <;> simp [oscUpdate]
  · intro h
    rw [h]
    norm_num

/-- Witness for C8: with heart rate 80, a "stepCount" update sends nothing
and a "heartRate" update sends one message with value 80/256 = 0.3125. -/
theorem osc_update_policy_witness :
    oscUpdate "/avatar/parameters/HeartRate" ⟨100, 80, 0, 0, 0, 0⟩
      "stepCount" = [] ∧
    oscUpdate "/avatar/parameters/HeartRate" ⟨100, 80, 0, 0, 0, 0⟩
      "heartRate" =
      [{ addr := "/avatar/parameters/HeartRate",
         value := (((⟨100, 80, 0, 0, 0, 0⟩ : HealthData).heartRate : ℚ))
           / 256 }] ∧
    (((⟨100, 80, 0, 0, 0, 0⟩ : HealthData).heartRate : ℚ)) / 256 = 0.3125 := by
  have h := osc_update_policy "/avatar/parameters/HeartRate"
    ⟨100, 80, 0, 0, 0, 0⟩ "heartRate"
  have h' := osc_update_policy "/avatar/parameters/HeartRate"
    ⟨100, 80, 0, 0, 0, 0⟩ "stepCount"
  exact ⟨h'.1 (by decide) (by decide), h.2.1 (Or.inl rfl), h.2.2 rfl⟩
